import Mathlib

/-!
Shallow embedding of the geometric calibration pipeline of the `aligner`
repository (src/src/lib.rs).  The f32 arithmetic of the source is modelled
over the real numbers; `Option` models Rust panics (`unwrap`/`expect`) and
fallible results.  The glm library functions used by the source
(`look_at`, `perspective`, `degrees`, `radians`, vector operations) are
embedded with their documented GLM (right-handed, NO-depth) semantics.
-/

namespace Aligner

/-- 2D vector, modelling glm::Vec2 (f32 components modelled as reals). -/
structure Vec2 where
  x : ℝ
  y : ℝ

/-- 3D vector, modelling glm::Vec3. -/
structure Vec3 where
  x : ℝ
  y : ℝ
  z : ℝ

/-- 4D vector, modelling glm::Vec4. -/
structure Vec4 where
  x : ℝ
  y : ℝ
  z : ℝ
  w : ℝ

noncomputable section

def Vec2.add (a b : Vec2) : Vec2 := ⟨a.x + b.x, a.y + b.y⟩

def Vec2.divScalar (a : Vec2) (s : ℝ) : Vec2 := ⟨a.x / s, a.y / s⟩

def Vec3.add (a b : Vec3) : Vec3 := ⟨a.x + b.x, a.y + b.y, a.z + b.z⟩

def Vec3.sub (a b : Vec3) : Vec3 := ⟨a.x - b.x, a.y - b.y, a.z - b.z⟩

def Vec3.smul (t : ℝ) (a : Vec3) : Vec3 := ⟨t * a.x, t * a.y, t * a.z⟩

def Vec3.dot (a b : Vec3) : ℝ := a.x * b.x + a.y * b.y + a.z * b.z

def Vec3.cross (a b : Vec3) : Vec3 :=
  ⟨a.y * b.z - a.z * b.y, a.z * b.x - a.x * b.z, a.x * b.y - a.y * b.x⟩

/-- glm Euclidean length of a vector. -/
def Vec3.len (a : Vec3) : ℝ := Real.sqrt (Vec3.dot a a)

/-- glm normalize: divide a vector by its Euclidean length. -/
def Vec3.normalize (a : Vec3) : Vec3 := ⟨a.x / a.len, a.y / a.len, a.z / a.len⟩

/-- glm Vec3::extend: append a fourth component. -/
def Vec3.extend (a : Vec3) (w : ℝ) : Vec4 := ⟨a.x, a.y, a.z, w⟩

/-- 4x4 matrix, modelling glm::Mat4; entry `mij` is row `i`, column `j`
of the matrix in the usual mathematical (row i, column j) sense. -/
structure Mat4 where
  m00 : ℝ
  m01 : ℝ
  m02 : ℝ
  m03 : ℝ
  m10 : ℝ
  m11 : ℝ
  m12 : ℝ
  m13 : ℝ
  m20 : ℝ
  m21 : ℝ
  m22 : ℝ
  m23 : ℝ
  m30 : ℝ
  m31 : ℝ
  m32 : ℝ
  m33 : ℝ

/-- Matrix-vector product, modelling glm `mat4 * vec4`. -/
def Mat4.mulVec (m : Mat4) (v : Vec4) : Vec4 :=
  ⟨m.m00 * v.x + m.m01 * v.y + m.m02 * v.z + m.m03 * v.w,
   m.m10 * v.x + m.m11 * v.y + m.m12 * v.z + m.m13 * v.w,
   m.m20 * v.x + m.m21 * v.y + m.m22 * v.z + m.m23 * v.w,
   m.m30 * v.x + m.m31 * v.y + m.m32 * v.z + m.m33 * v.w⟩

/-- glm::ext::look_at (right-handed): rows are the camera's side, up and
negated forward axes, with the translation that moves `eye` to the origin. -/
def look_at (eye center up : Vec3) : Mat4 :=
  let f := Vec3.normalize (Vec3.sub center eye)
  let s := Vec3.normalize (Vec3.cross f up)
  let u := Vec3.cross s f
  ⟨s.x, s.y, s.z, -(Vec3.dot s eye),
   u.x, u.y, u.z, -(Vec3.dot u eye),
   -f.x, -f.y, -f.z, Vec3.dot f eye,
   0, 0, 0, 1⟩

/-- glm::ext::perspective (right-handed, [-1,1] depth):
vertical field of view in radians, aspect ratio, near and far planes. -/
def perspective (fovy aspect zNear zFar : ℝ) : Mat4 :=
  let tanHalfFovy := Real.tan (fovy / 2)
  ⟨1 / (aspect * tanHalfFovy), 0, 0, 0,
   0, 1 / tanHalfFovy, 0, 0,
   0, 0, -(zFar + zNear) / (zFar - zNear), -(2 * zFar * zNear) / (zFar - zNear),
   0, 0, -1, 0⟩

/-- glm::degrees: radians to degrees. -/
def degrees (x : ℝ) : ℝ := x * 180 / Real.pi

/-- glm::radians: degrees to radians. -/
def radians (x : ℝ) : ℝ := x * Real.pi / 180

/-- Four-quadrant arctangent, modelling f32::atan2 on non-NaN inputs. -/
def atan2 (y x : ℝ) : ℝ :=
  if 0 < x then Real.arctan (y / x)
  else if x < 0 then
    (if 0 ≤ y then Real.arctan (y / x) + Real.pi else Real.arctan (y / x) - Real.pi)
  else
    (if 0 < y then Real.pi / 2 else if y < 0 then -(Real.pi / 2) else 0)

/-- Camera intrinsic calibration (camera_calibration::Calibration); the
pipeline only reads the image dimensions, the intrinsic matrix and
distortion coefficients are opaque to it. -/
structure Calibration where
  image_width : ℤ
  image_height : ℤ

/-- PhysicalCamera (lib.rs:25): pose and intrinsics of the real camera. -/
structure PhysicalCamera where
  position : Vec3
  look_at : Vec3
  up_dir : Vec3
  calibration : Calibration

/-- VirtualCamera (lib.rs:32): the synthetic camera used to compute the
warp.  `look_at` and `fov` start out unset and are filled during
calibration. -/
structure VirtualCamera where
  position : Vec3
  up_dir : Vec3
  look_at : Option Vec3
  fov : Option ℝ

/-- Modelled from the spec: the `surfaces` module is not under src/.
Section 4.1 specifies `surfaces::camera_to_scene` as a pure, possibly
failing function from (surface, physical camera, image point, image
width, image height) to the 3D ray/surface intersection point, where
each surface variant defines its own intersection rule.  We model a
surface as carrying its variant's intersection rule. -/
structure SurfaceType where
  camera_to_scene : PhysicalCamera → Vec2 → ℤ → ℤ → Option Vec3

/-- Resolution (lib.rs:39): a width x height pixel extent (i32 fields). -/
structure Resolution where
  width : ℤ
  height : ℤ
deriving DecidableEq

/-- Resolution::aspect_ratio (lib.rs:53): width over height as a fraction. -/
def Resolution.aspect_ratio (r : Resolution) : ℝ := (r.width : ℝ) / (r.height : ℝ)

end

/-- Digit test for the regex character class \d. -/
def isDigit (c : Char) : Bool := '0' ≤ c && c ≤ '9'

/-- Decimal value of a digit string, as produced by str::parse. -/
def digitsToNat (ds : List Char) : ℕ := ds.foldl (fun a c => 10 * a + (c.toNat - 48)) 0

/-- One attempt of the regex `(?P<width>\d+)x(?P<height>\d+)` anchored at
the head of the list: a maximal non-empty digit run, the literal 'x',
then a maximal non-empty digit run.  (Backtracking the greedy first \d+
cannot help: every shorter prefix of the maximal run is followed by a
digit, not by 'x'.) -/
def match_at (s : List Char) : Option (ℕ × ℕ) :=
  let w := s.takeWhile isDigit
  if w = [] then none
  else
    match s.dropWhile isDigit with
    | [] => none
    | c :: r2 =>
      if c = 'x' then
        let h := r2.takeWhile isDigit
        if h = [] then none else some (digitsToNat w, digitsToNat h)
      else none

/-- Unanchored leftmost regex search, as Regex::captures performs. -/
def regex_search : List Char → Option (ℕ × ℕ)
  | [] => none
  | c :: rest =>
    match match_at (c :: rest) with
    | some r => some r
    | none => regex_search rest

/-- Resolution::parse (lib.rs:57): search the input for
`(?P<width>\d+)x(?P<height>\d+)`; `captures(..).expect(..)` panics
(modelled as `none`) when the pattern does not occur, and the i32
conversion of each captured group panics on overflow. -/
def Resolution.parse (input : List Char) : Option Resolution :=
  match regex_search input with
  | none => none
  | some wh =>
    if wh.1 ≤ 2147483647 ∧ wh.2 ≤ 2147483647 then
      some ⟨(wh.1 : ℤ), (wh.2 : ℤ)⟩
    else none

noncomputable section

/-- Last stage of the modelled math::project: map normalized device
coordinates into the viewport, with the vertical flip that makes +Y
point down in output space. -/
def clip_to_viewport (viewport : Vec4) (ndc : Vec3) : Vec3 :=
  ⟨viewport.x + viewport.z * ((ndc.x + 1) / 2),
   viewport.y + viewport.w * (1 - (ndc.y + 1) / 2),
   (ndc.z + 1) / 2⟩

/-- Modelled from the spec: the `math` module is not under src/.  Section
4.4 specifies math::project as: transform the point through view then
projection, perform the perspective division, and map the result from
clip space into the viewport rectangle (here always [0,1]x[0,1]) with a
vertical-flip convention making +Y point down in output space. -/
def project (obj : Vec3) (model proj : Mat4) (viewport : Vec4) : Vec3 :=
  let tmp := proj.mulVec (model.mulVec (obj.extend 1))
  clip_to_viewport viewport ⟨tmp.x / tmp.w, tmp.y / tmp.w, tmp.z / tmp.w⟩

/-- Body of project_scene_point (lib.rs:215) once look_at and fov are
known: view transform, perspective transform with near 0.1 and far 100,
projection into the unit viewport, and truncation to (x, y). -/
def project_core (scene_pos position center up : Vec3) (fov aspect : ℝ) : Vec2 :=
  let model := look_at position center up
  let proj := perspective (radians fov) aspect 0.1 100
  let screen_pos := project ⟨scene_pos.x, scene_pos.y, scene_pos.z⟩ model proj ⟨0, 0, 1, 1⟩
  ⟨screen_pos.x, screen_pos.y⟩

/-- The off-screen condition of lib.rs:225, which only triggers a log
warning in the source. -/
def out_of_range (v : Vec2) : Prop := v.x < 0 ∨ v.y < 0 ∨ 1 < v.x ∨ 1 < v.y

/-- project_scene_point (lib.rs:215).  The source unwraps the optional
look_at and fov fields (a panic, modelled as `none`, when either is
unset) and otherwise returns the normalized screen position. -/
def project_scene_point (scene_pos : Vec3) (virtual_camera : VirtualCamera) (projector_aspect : ℝ) : Option Vec2 :=
  match virtual_camera.look_at, virtual_camera.fov with
  | some center, some fov =>
    some (project_core scene_pos virtual_camera.position center virtual_camera.up_dir fov projector_aspect)
  | _, _ => none

/-- Angle computed per scene point in generate_uv_warp_and_fov
(lib.rs:191): transform into view space, then atan2 of the absolute
vertical component against the absolute depth component. -/
def view_angle (trans : Mat4) (scene_point : Vec3) : ℝ :=
  let eye_relative := trans.mulVec (scene_point.extend 1)
  atan2 |eye_relative.y| |eye_relative.z|

/-- The max_rad accumulation of lib.rs:188-195: fold starting from the
sentinel -1, keeping the larger of the accumulator and each point's
view angle (`if rad > max_rad { max_rad = rad }`). -/
def fitted_max_rad (trans : Mat4) (scene_coords : List Vec3) : ℝ :=
  scene_coords.foldl (fun m p => max m (view_angle trans p)) (-1)

/-- The projection loop of lib.rs:201-210: project each scene coordinate
through the (now fully fitted) virtual camera, pushing the results in
input order; a panic inside project_scene_point is modelled as `none`. -/
def project_all (scene_coords : List Vec3) (virtual_camera : VirtualCamera) (aspect : ℝ) : Option (List Vec2) :=
  match scene_coords with
  | [] => some []
  | c :: rest =>
    match project_scene_point c virtual_camera aspect with
    | none => none
    | some v =>
      match project_all rest virtual_camera aspect with
      | none => none
      | some tl => some (v :: tl)

/-- generate_uv_warp_and_fov (lib.rs:186): build the look-at transform
(unwrapping the optional look_at), fit the field of view as
degrees(max_rad) * 2.001, store it in the camera, then project every
scene coordinate through the updated camera. -/
def generate_uv_warp_and_fov (scene_coords : List Vec3) (virtual_camera : VirtualCamera) (projector_res : Resolution) : Option (List Vec2 × VirtualCamera) :=
  match virtual_camera.look_at with
  | none => none
  | some center =>
    let trans := look_at virtual_camera.position center virtual_camera.up_dir
    let max_rad := fitted_max_rad trans scene_coords
    let vc2 : VirtualCamera :=
      ⟨virtual_camera.position, virtual_camera.up_dir, virtual_camera.look_at,
       some (degrees max_rad * 2.001)⟩
    match project_all scene_coords vc2 (Resolution.aspect_ratio projector_res) with
    | none => none
    | some uv_coords => some (uv_coords, vc2)

/-- locate_scene_coords (lib.rs:150): intersect each image point with the
surface in input order, unwrapping (panic, modelled as `none`) on any
failed intersection. -/
def locate_scene_coords (surface : SurfaceType) (physical_camera : PhysicalCamera) (image_points : List Vec2) : Option (List Vec3) :=
  match image_points with
  | [] => some []
  | point :: rest =>
    match surface.camera_to_scene physical_camera point
        physical_camera.calibration.image_width physical_camera.calibration.image_height with
    | none => none
    | some scene_coord =>
      match locate_scene_coords surface physical_camera rest with
      | none => none
      | some tail_coords => some (scene_coord :: tail_coords)

/-- calculate_look_at (lib.rs:133): sum the image points, divide by the
count, and intersect the averaged point with the surface (unwrap
modelled as `none` on failure). -/
def calculate_look_at (surface : SurfaceType) (image_points : List Vec2) (physical_camera : PhysicalCamera) : Option Vec3 :=
  let avg := image_points.foldl Vec2.add ⟨0, 0⟩
  let avg2 := Vec2.divScalar avg (image_points.length : ℝ)
  surface.camera_to_scene physical_camera avg2
    physical_camera.calibration.image_width physical_camera.calibration.image_height

/-- Unweighted arithmetic mean of a list of 2D points, stated the way the
spec words it (componentwise sum over count); used to compare the code's
accumulation loop against the spec's description. -/
def centroid (pts : List Vec2) : Vec2 :=
  ⟨(pts.map Vec2.x).sum / (pts.length : ℝ), (pts.map Vec2.y).sum / (pts.length : ℝ)⟩

/-- Pure core of produce_calibration (lib.rs:88): the stages after
image-point acquisition (pattern display, photo capture and corner
detection are external I/O).  The VirtualCamera starts with only
position and up set (lib.rs:111), the direction fit fills look_at
(lib.rs:122), and generate_uv_warp_and_fov fills fov (lib.rs:123). -/
def produce_calibration_core (surface : SurfaceType) (physical_camera : PhysicalCamera) (eye_position : Vec3) (image_points : List Vec2) (projector_res : Resolution) : Option (List Vec3 × List Vec2 × VirtualCamera) :=
  let vc0 : VirtualCamera := ⟨eye_position, ⟨0, 1, 0⟩, none, none⟩
  match locate_scene_coords surface physical_camera image_points with
  | none => none
  | some scene_coords =>
    match calculate_look_at surface image_points physical_camera with
    | none => none
    | some la =>
      let vc1 : VirtualCamera := ⟨vc0.position, vc0.up_dir, some la, vc0.fov⟩
      match generate_uv_warp_and_fov scene_coords vc1 projector_res with
      | none => none
      | some p => some (scene_coords, p.1, p.2)

end

noncomputable section

/-- A concrete planar-style surface used to evaluate the pipeline on
concrete inputs: every image point (x, y) intersects at (x, y, 1). -/
def test_surface : SurfaceType := ⟨fun _ p _ _ => some ⟨p.x, p.y, 1⟩⟩

/-- Concrete intrinsics fixture. -/
def test_calibration : Calibration := ⟨640, 480⟩

/-- Concrete physical camera fixture (the default pose of lib.rs:90). -/
def test_physical_camera : PhysicalCamera := ⟨⟨0, 0, 0⟩, ⟨0, 1, 0⟩, ⟨0, 0, 1⟩, test_calibration⟩

/-- Concrete virtual camera fixture with direction already fitted. -/
def test_virtual_camera : VirtualCamera := ⟨⟨0, 0, 0⟩, ⟨0, 1, 0⟩, some ⟨0, 0, 1⟩, none⟩

/-- Concrete projector resolution fixture. -/
def test_res : Resolution := ⟨1920, 1080⟩

end

section MaxFold

variable {α : Type*} [LinearOrder α]

lemma le_foldl_max (init : α) (l : List α) : init ≤ l.foldl max init := by
  induction l generalizing init with
  | nil => exact le_refl _
  | cons a l ih =>
    simp only [List.foldl_cons]
    exact le_trans (le_max_left init a) (ih (max init a))

lemma mem_le_foldl_max (init : α) {x : α} {l : List α} : x ∈ l → x ≤ l.foldl max init := by
  induction l generalizing init with
  | nil => intro hx; cases hx
  | cons a l ih =>
    intro hx
    simp only [List.foldl_cons]
    rcases List.mem_cons.mp hx with h | h
    · subst h
      exact le_trans (le_max_right init x) (le_foldl_max (max init x) l)
    · exact ih (max init a) h

lemma foldl_max_le (init b : α) (l : List α) : init ≤ b → (∀ x ∈ l, x ≤ b) → l.foldl max init ≤ b := by
  induction l generalizing init with
  | nil => intro hi _; exact hi
  | cons a l ih =>
    intro hi hl
    simp only [List.foldl_cons]
    exact ih (max init a) (max_le hi (hl a (by simp))) (fun x hx => hl x (by simp [hx]))

lemma foldl_max_eq_init_or_mem (init : α) (l : List α) : l.foldl max init = init ∨ l.foldl max init ∈ l := by
  induction l generalizing init with
  | nil => exact Or.inl rfl
  | cons a l ih =>
    simp only [List.foldl_cons]
    rcases ih (max init a) with h | h
    · rcases max_choice init a with hm | hm
      · exact Or.inl (by rw [h, hm])
      · exact Or.inr (by rw [h, hm]; exact List.mem_cons_self a l)
    · exact Or.inr (List.mem_cons_of_mem _ h)

end MaxFold

lemma atan2_of_pos {y x : ℝ} (hx : 0 < x) : atan2 y x = Real.arctan (y / x) := by
  unfold atan2
  rw [if_pos hx]

lemma atan2_nonneg {y x : ℝ} (hy : 0 ≤ y) (hx : 0 ≤ x) : 0 ≤ atan2 y x := by
  unfold atan2
  split_ifs with h1 h2 h3 h4
  · have h0 : 0 ≤ y / x := div_nonneg hy h1.le
    calc (0 : ℝ) = Real.arctan 0 := Real.arctan_zero.symm
    _ ≤ Real.arctan (y / x) := Real.arctan_strictMono.monotone h0
  all_goals linarith [Real.pi_pos]

lemma view_angle_nonneg (trans : Mat4) (p : Vec3) : 0 ≤ view_angle trans p :=
  atan2_nonneg (abs_nonneg _) (abs_nonneg _)

lemma neg_one_lt_view_angle (trans : Mat4) (p : Vec3) : (-1 : ℝ) < view_angle trans p :=
  lt_of_lt_of_le (by norm_num) (view_angle_nonneg trans p)

lemma project_all_eq_map (sc : List Vec3) (vc : VirtualCamera) (a : ℝ) {c : Vec3} {f : ℝ}
    (hc : vc.look_at = some c) (hf : vc.fov = some f) :
    project_all sc vc a = some (sc.map (fun p => project_core p vc.position c vc.up_dir f a)) := by
  induction sc with
  | nil => rfl
  | cons p rest ih =>
    simp only [project_all, project_scene_point, hc, hf, ih, List.map_cons]

lemma generate_eq (sc : List Vec3) (vc : VirtualCamera) (res : Resolution) {c : Vec3}
    (hc : vc.look_at = some c) :
    generate_uv_warp_and_fov sc vc res =
      some (sc.map (fun p => project_core p vc.position c vc.up_dir
              (degrees (fitted_max_rad (look_at vc.position c vc.up_dir) sc) * 2.001)
              (Resolution.aspect_ratio res)),
            ⟨vc.position, vc.up_dir, some c,
             some (degrees (fitted_max_rad (look_at vc.position c vc.up_dir) sc) * 2.001)⟩) := by
  simp only [generate_uv_warp_and_fov, hc]
  rw [project_all_eq_map _ _ _ rfl rfl]

lemma locate_scene_coords_spec (surface : SurfaceType) (pc : PhysicalCamera) :
    ∀ (pts : List Vec2) (out : List Vec3), locate_scene_coords surface pc pts = some out →
      out.length = pts.length ∧
      ∀ (i : ℕ) (p : Vec2), pts[i]? = some p →
        out[i]? = surface.camera_to_scene pc p pc.calibration.image_width pc.calibration.image_height := by
  intro pts
  induction pts with
  | nil =>
    intro out h
    simp only [locate_scene_coords, Option.some.injEq] at h
    subst h
    exact ⟨rfl, fun i p hp => by simp at hp⟩
  | cons q rest ih =>
    intro out h
    simp only [locate_scene_coords] at h
    cases hq : surface.camera_to_scene pc q pc.calibration.image_width pc.calibration.image_height with
    | none => rw [hq] at h; cases h
    | some v =>
      rw [hq] at h
      cases hr : locate_scene_coords surface pc rest with
      | none => rw [hr] at h; cases h
      | some tl =>
        rw [hr] at h
        simp only [Option.some.injEq] at h
        subst h
        obtain ⟨hlen, hspec⟩ := ih tl hr
        refine ⟨by simp [hlen], ?_⟩
        intro i p hp
        cases i with
        | zero =>
          simp only [List.getElem?_cons_zero, Option.some.injEq] at hp
          subst hp
          simp [hq]
        | succ j =>
          simp only [List.getElem?_cons_succ] at hp ⊢
          exact hspec j p hp

lemma fitted_max_rad_eq_map (T : Mat4) (sc : List Vec3) :
    fitted_max_rad T sc = (sc.map (view_angle T)).foldl max (-1) := by
  unfold fitted_max_rad
  rw [List.foldl_map]

lemma fitted_max_rad_mono (T : Mat4) (A B : List Vec3)
    (h : ∀ a ∈ A, view_angle T a ≤ fitted_max_rad T B) :
    fitted_max_rad T A ≤ fitted_max_rad T B := by
  rw [fitted_max_rad_eq_map]
  refine foldl_max_le _ _ _ ?_ ?_
  · rw [fitted_max_rad_eq_map]
    exact le_foldl_max _ _
  · intro x hx
    obtain ⟨a, ha, rfl⟩ := List.mem_map.mp hx
    exact h a ha

lemma view_angle_le_fitted_max_rad (T : Mat4) {a : Vec3} {sc : List Vec3} (ha : a ∈ sc) :
    view_angle T a ≤ fitted_max_rad T sc := by
  rw [fitted_max_rad_eq_map]
  exact mem_le_foldl_max _ (List.mem_map_of_mem _ ha)

lemma fov_formula_mono {x y : ℝ} (h : x ≤ y) : degrees x * 2.001 ≤ degrees y * 2.001 := by
  unfold degrees
  have h1 : x * 180 ≤ y * 180 := mul_le_mul_of_nonneg_right h (by norm_num)
  have h2 : x * 180 / Real.pi ≤ y * 180 / Real.pi :=
    (div_le_div_iff_of_pos_right Real.pi_pos).mpr h1
  exact mul_le_mul_of_nonneg_right h2 (by norm_num)

/-- Claim C6: Resolution::parse maps "1920x1080" to width 1920 and
height 1080, whose aspect ratio is 1920/1080, and fails on malformed
input (no 'x' separator, or non-numeric parts) rather than producing a
default resolution. -/
theorem claim_C6_resolution_parse :
    Resolution.parse ['1', '9', '2', '0', 'x', '1', '0', '8', '0'] = some ⟨1920, 1080⟩ ∧
    Resolution.aspect_ratio ⟨1920, 1080⟩ = 1920 / 1080 ∧
    Resolution.parse ['1', '9', '2', '0', '1', '0', '8', '0'] = none ∧
    Resolution.parse ['a', 'x', 'b'] = none := by
  refine ⟨by decide, ?_, by decide, by decide⟩
  unfold Resolution.aspect_ratio
  norm_num

/-- Claim C2: for any input sequence of N image points, scene-coordinate
resolution produces exactly N scene coordinates with output i the
surface intersection of input i, and the warp projection produces
exactly N warp coordinates with output i the projection of scene
coordinate i, in input order. -/
theorem claim_C2_index_alignment :
    (∀ (surface : SurfaceType) (pc : PhysicalCamera) (pts : List Vec2) (out : List Vec3),
      locate_scene_coords surface pc pts = some out →
        out.length = pts.length ∧
        ∀ (i : ℕ) (p : Vec2), pts[i]? = some p →
          out[i]? = surface.camera_to_scene pc p pc.calibration.image_width
            pc.calibration.image_height) ∧
    (∀ (sc : List Vec3) (vc : VirtualCamera) (res : Resolution) (uv : List Vec2)
        (vc2 : VirtualCamera),
      generate_uv_warp_and_fov sc vc res = some (uv, vc2) →
        uv.length = sc.length ∧
        ∀ (i : ℕ) (p : Vec3), sc[i]? = some p →
          uv[i]? = project_scene_point p vc2 (Resolution.aspect_ratio res)) := by
  constructor
  · exact fun surface pc pts out h => locate_scene_coords_spec surface pc pts out h
  · intro sc vc res uv vc2 h
    cases hc : vc.look_at with
    | none => simp [generate_uv_warp_and_fov, hc] at h
    | some c =>
      rw [generate_eq sc vc res hc] at h
      simp only [Option.some.injEq, Prod.mk.injEq] at h
      obtain ⟨huv, hvc⟩ := h
      subst huv
      subst hvc
      refine ⟨by simp, ?_⟩
      intro i p hp
      simp [List.getElem?_map, hp, project_scene_point]

/-- Witness for C2 at concrete inputs. -/
theorem claim_C2_witness :
    (([⟨1, 2, 1⟩] : List Vec3).length = ([⟨1, 2⟩] : List Vec2).length) ∧
    (∃ (uv : List Vec2) (vc2 : VirtualCamera),
      generate_uv_warp_and_fov [] test_virtual_camera test_res = some (uv, vc2) ∧
      uv.length = ([] : List Vec3).length) := by
  constructor
  · exact (claim_C2_index_alignment.1 test_surface test_physical_camera [⟨1, 2⟩] [⟨1, 2, 1⟩] rfl).1
  · have h := generate_eq [] test_virtual_camera test_res rfl
    exact ⟨_, _, h, (claim_C2_index_alignment.2 [] test_virtual_camera test_res _ _ h).1⟩

/-- Claim C3: the direction fit computes the unweighted arithmetic mean
of the 2D image points and maps that single averaged point through the
surface-geometry intersection to obtain the look target; for a single
point the look target is that point's own surface intersection. -/
theorem claim_C3_direction_fit :
    (∀ (surface : SurfaceType) (pc : PhysicalCamera) (pts : List Vec2), pts ≠ [] →
      calculate_look_at surface pts pc =
        surface.camera_to_scene pc (centroid pts) pc.calibration.image_width
          pc.calibration.image_height) ∧
    (∀ (surface : SurfaceType) (pc : PhysicalCamera) (p : Vec2),
      calculate_look_at surface [p] pc =
        surface.camera_to_scene pc p pc.calibration.image_width
          pc.calibration.image_height) := by
  have hsum : ∀ (pts : List Vec2) (a : Vec2),
      pts.foldl Vec2.add a = ⟨a.x + (pts.map Vec2.x).sum, a.y + (pts.map Vec2.y).sum⟩ := by
    intro pts
    induction pts with
    | nil => intro a; simp
    | cons q rest ih =>
      intro a
      simp only [List.foldl_cons, List.map_cons, List.sum_cons, ih, Vec2.add]
      congr 1 <;> ring
  have hmean : ∀ pts : List Vec2,
      Vec2.divScalar (pts.foldl Vec2.add ⟨0, 0⟩) ((pts.length : ℕ) : ℝ) = centroid pts := by
    intro pts
    rw [hsum pts ⟨0, 0⟩]
    simp [Vec2.divScalar, centroid]
  constructor
  · intro surface pc pts _
    simp only [calculate_look_at]
    rw [hmean pts]
  · intro surface pc p
    simp only [calculate_look_at]
    rw [hmean [p]]
    have : centroid [p] = p := by
      simp [centroid]
    rw [this]

/-- Witness for C3 at a concrete input. -/
theorem claim_C3_witness :
    calculate_look_at test_surface [⟨1, 2⟩] test_physical_camera =
      test_surface.camera_to_scene test_physical_camera (centroid [⟨1, 2⟩])
        test_physical_camera.calibration.image_width
        test_physical_camera.calibration.image_height :=
  claim_C3_direction_fit.1 test_surface test_physical_camera [⟨1, 2⟩] (List.cons_ne_nil _ _)

/-- Claim C10: with an empty scene-coordinate sequence (and the virtual
camera's direction set) generate_uv_warp_and_fov does not fail: the
max-angle accumulator keeps its sentinel -1 radian, the field of view
becomes degrees(-1) * 2.001 (a negative value close to -114.65 degrees),
and the warp sequence is empty. -/
theorem claim_C10_empty_scene_fov :
    ∀ (vc : VirtualCamera) (res : Resolution) (c : Vec3), vc.look_at = some c →
      generate_uv_warp_and_fov [] vc res =
        some ([], ⟨vc.position, vc.up_dir, some c, some (degrees (-1) * 2.001)⟩) ∧
      -114.65 < degrees (-1) * 2.001 ∧ degrees (-1) * 2.001 < -114.64 := by
  intro vc res c hc
  have heq : degrees (-1) * 2.001 = -(360.18 / Real.pi) := by
    unfold degrees; ring
  refine ⟨?_, ?_, ?_⟩
  · have h := generate_eq [] vc res hc
    simpa [fitted_max_rad] using h
  · rw [heq]
    have h2 : 360.18 / Real.pi < 114.65 := by
      rw [div_lt_iff₀ Real.pi_pos]
      linarith [Real.pi_gt_d6]
    linarith
  · rw [heq]
    have h2 : 114.64 < 360.18 / Real.pi := by
      rw [lt_div_iff₀ Real.pi_pos]
      linarith [Real.pi_lt_d6]
    linarith

/-- Witness for C10 at a concrete camera. -/
theorem claim_C10_witness :
    generate_uv_warp_and_fov [] test_virtual_camera test_res =
      some ([], ⟨⟨0, 0, 0⟩, ⟨0, 1, 0⟩, some ⟨0, 0, 1⟩, some (degrees (-1) * 2.001)⟩) ∧
    degrees (-1) * 2.001 < -114.64 := by
  have h := claim_C10_empty_scene_fov test_virtual_camera test_res ⟨0, 0, 1⟩ rfl
  exact ⟨h.1, h.2.2⟩

/-- Claim C4: the fitted field of view is monotone in the point set: with
the same eye, direction and up vector, if every point of A subtends a
view-axis angle no greater than B's maximum accumulated angle then the
FOV fitted for A is at most the FOV fitted for B; in particular
appending points never decreases the fitted FOV. -/
theorem claim_C4_fov_monotone :
    (∀ (vc : VirtualCamera) (c : Vec3) (res : Resolution) (A B : List Vec3)
        (uvA uvB : List Vec2) (vcA vcB : VirtualCamera) (fA fB : ℝ),
      vc.look_at = some c →
      (∀ a ∈ A, view_angle (look_at vc.position c vc.up_dir) a ≤
        fitted_max_rad (look_at vc.position c vc.up_dir) B) →
      generate_uv_warp_and_fov A vc res = some (uvA, vcA) →
      generate_uv_warp_and_fov B vc res = some (uvB, vcB) →
      vcA.fov = some fA → vcB.fov = some fB → fA ≤ fB) ∧
    (∀ (vc : VirtualCamera) (c : Vec3) (res : Resolution) (A C : List Vec3)
        (uvA uvAC : List Vec2) (vcA vcAC : VirtualCamera) (fA fAC : ℝ),
      vc.look_at = some c →
      generate_uv_warp_and_fov A vc res = some (uvA, vcA) →
      generate_uv_warp_and_fov (A ++ C) vc res = some (uvAC, vcAC) →
      vcA.fov = some fA → vcAC.fov = some fAC → fA ≤ fAC) := by
  have key : ∀ (vc : VirtualCamera) (c : Vec3) (res : Resolution) (A B : List Vec3)
      (uvA uvB : List Vec2) (vcA vcB : VirtualCamera) (fA fB : ℝ),
      vc.look_at = some c →
      (∀ a ∈ A, view_angle (look_at vc.position c vc.up_dir) a ≤
        fitted_max_rad (look_at vc.position c vc.up_dir) B) →
      generate_uv_warp_and_fov A vc res = some (uvA, vcA) →
      generate_uv_warp_and_fov B vc res = some (uvB, vcB) →
      vcA.fov = some fA → vcB.fov = some fB → fA ≤ fB := by
    intro vc c res A B uvA uvB vcA vcB fA fB hc hAB hgA hgB hfA hfB
    rw [generate_eq A vc res hc] at hgA
    rw [generate_eq B vc res hc] at hgB
    simp only [Option.some.injEq, Prod.mk.injEq] at hgA hgB
    obtain ⟨-, hvcA⟩ := hgA
    obtain ⟨-, hvcB⟩ := hgB
    subst hvcA
    subst hvcB
    simp only [Option.some.injEq] at hfA hfB
    subst hfA
    subst hfB
    exact fov_formula_mono (fitted_max_rad_mono _ A B hAB)
  refine ⟨key, ?_⟩
  intro vc c res A C uvA uvAC vcA vcAC fA fAC hc hgA hgAC hfA hfAC
  refine key vc c res A (A ++ C) uvA uvAC vcA vcAC fA fAC hc ?_ hgA hgAC hfA hfAC
  intro a ha
  exact view_angle_le_fitted_max_rad _ (List.mem_append_left C ha)

/-- Witness for C4 at concrete inputs. -/
theorem claim_C4_witness :
    ∃ (uv : List Vec2) (vc2 : VirtualCamera) (f : ℝ),
      generate_uv_warp_and_fov [] test_virtual_camera test_res = some (uv, vc2) ∧
      vc2.fov = some f ∧ f ≤ f := by
  have h := generate_eq [] test_virtual_camera test_res rfl
  refine ⟨_, _, _, h, rfl, ?_⟩
  exact claim_C4_fov_monotone.1 test_virtual_camera ⟨0, 0, 1⟩ test_res [] [] _ _ _ _ _ _
    rfl (by simp) h h rfl rfl

/-- Claim C9: the virtual camera is two-phase: the FOV fit modifies only
the fov field (position, up vector and direction are preserved by
generate_uv_warp_and_fov), projecting a scene point with direction or
FOV unset fails, the unset branch is unreachable when both preconditions
hold, and the full pipeline core leaves the eye position and up vector
it was constructed with unchanged while ending with both optional
fields set. -/
theorem claim_C9_two_phase :
    (∀ (sc : List Vec3) (vc : VirtualCamera) (res : Resolution) (uv : List Vec2)
        (vc2 : VirtualCamera),
      generate_uv_warp_and_fov sc vc res = some (uv, vc2) →
        vc2.position = vc.position ∧ vc2.up_dir = vc.up_dir ∧ vc2.look_at = vc.look_at ∧
        ∃ f, vc2.fov = some f) ∧
    (∀ (p : Vec3) (vc : VirtualCamera) (a : ℝ),
      vc.look_at = none ∨ vc.fov = none → project_scene_point p vc a = none) ∧
    (∀ (p : Vec3) (vc : VirtualCamera) (a : ℝ) (c : Vec3) (f : ℝ),
      vc.look_at = some c → vc.fov = some f → ∃ v, project_scene_point p vc a = some v) ∧
    (∀ (surface : SurfaceType) (pc : PhysicalCamera) (eye : Vec3) (pts : List Vec2)
        (res : Resolution) (sc : List Vec3) (uv : List Vec2) (vc2 : VirtualCamera),
      produce_calibration_core surface pc eye pts res = some (sc, uv, vc2) →
        vc2.position = eye ∧ vc2.up_dir = ⟨0, 1, 0⟩ ∧
        (∃ c, vc2.look_at = some c) ∧ ∃ f, vc2.fov = some f) := by
  refine ⟨?_, ?_, ?_, ?_⟩
  · intro sc vc res uv vc2 h
    cases hc : vc.look_at with
    | none => simp [generate_uv_warp_and_fov, hc] at h
    | some c =>
      rw [generate_eq sc vc res hc] at h
      simp only [Option.some.injEq, Prod.mk.injEq] at h
      obtain ⟨-, hvc⟩ := h
      subst hvc
      exact ⟨rfl, rfl, rfl, _, rfl⟩
  · intro p vc a h
    rcases h with hc | hf
    · simp [project_scene_point, hc]
    · cases hcc : vc.look_at <;> simp [project_scene_point, hcc, hf]
  · intro p vc a c f hc hf
    refine ⟨project_core p vc.position c vc.up_dir f a, ?_⟩
    simp [project_scene_point, hc, hf]
  · intro surface pc eye pts res sc uv vc2 h
    cases hl : locate_scene_coords surface pc pts with
    | none => simp [produce_calibration_core, hl] at h
    | some sc0 =>
      cases hla : calculate_look_at surface pts pc with
      | none => simp [produce_calibration_core, hl, hla] at h
      | some la =>
        have hg := generate_eq sc0 (⟨eye, ⟨0, 1, 0⟩, some la, none⟩ : VirtualCamera) res rfl
        simp only [produce_calibration_core, hl, hla, hg] at h
        simp only [Option.some.injEq, Prod.mk.injEq] at h
        obtain ⟨-, -, hvc⟩ := h
        subst hvc
        exact ⟨rfl, rfl, ⟨la, rfl⟩, _, rfl⟩

/-- Witness for C9 at concrete inputs. -/
theorem claim_C9_witness :
    (∃ (uv : List Vec2) (vc2 : VirtualCamera),
      generate_uv_warp_and_fov [] test_virtual_camera test_res = some (uv, vc2) ∧
      vc2.position = test_virtual_camera.position ∧
      vc2.look_at = test_virtual_camera.look_at) ∧
    project_scene_point ⟨0, 0, 0⟩ ⟨⟨0, 0, 0⟩, ⟨0, 1, 0⟩, none, none⟩ 1 = none ∧
    (∃ v, project_scene_point ⟨0, 0, 0⟩ ⟨⟨0, 0, 0⟩, ⟨0, 1, 0⟩, some ⟨0, 0, 1⟩, some 90⟩ 1 =
      some v) ∧
    (∃ (sc : List Vec3) (uv : List Vec2) (vc2 : VirtualCamera),
      produce_calibration_core test_surface test_physical_camera ⟨0, 0, 0⟩ [⟨1, 2⟩] test_res =
        some (sc, uv, vc2) ∧ vc2.position = ⟨0, 0, 0⟩ ∧ ∃ f, vc2.fov = some f) := by
  refine ⟨?_, ?_, ?_, ?_⟩
  · have h := generate_eq [] test_virtual_camera test_res rfl
    exact ⟨_, _, h, (claim_C9_two_phase.1 _ _ _ _ _ h).1, (claim_C9_two_phase.1 _ _ _ _ _ h).2.2.1⟩
  · exact claim_C9_two_phase.2.1 _ _ _ (Or.inl rfl)
  · exact claim_C9_two_phase.2.2.1 ⟨0, 0, 0⟩ ⟨⟨0, 0, 0⟩, ⟨0, 1, 0⟩, some ⟨0, 0, 1⟩, some 90⟩ 1
      ⟨0, 0, 1⟩ 90 rfl rfl
  · have hloc : locate_scene_coords test_surface test_physical_camera [⟨1, 2⟩] =
        some [⟨1, 2, 1⟩] := rfl
    have hla : calculate_look_at test_surface [⟨1, 2⟩] test_physical_camera =
        some ⟨1, 2, 1⟩ := by
      simp [calculate_look_at, test_surface, test_physical_camera, Vec2.add, Vec2.divScalar]
    have hgen := generate_eq [⟨1, 2, 1⟩] ⟨⟨0, 0, 0⟩, ⟨0, 1, 0⟩, some ⟨1, 2, 1⟩, none⟩ test_res rfl
    have hprod : produce_calibration_core test_surface test_physical_camera ⟨0, 0, 0⟩
        [⟨1, 2⟩] test_res =
        some ([⟨1, 2, 1⟩],
          [⟨1, 2, 1⟩].map (fun p => project_core p ⟨0, 0, 0⟩ ⟨1, 2, 1⟩ ⟨0, 1, 0⟩
            (degrees (fitted_max_rad (look_at ⟨0, 0, 0⟩ ⟨1, 2, 1⟩ ⟨0, 1, 0⟩) [⟨1, 2, 1⟩]) * 2.001)
            (Resolution.aspect_ratio test_res)),
          ⟨⟨0, 0, 0⟩, ⟨0, 1, 0⟩, some ⟨1, 2, 1⟩,
           some (degrees (fitted_max_rad (look_at ⟨0, 0, 0⟩ ⟨1, 2, 1⟩ ⟨0, 1, 0⟩) [⟨1, 2, 1⟩]) *
             2.001)⟩) := by
      simp only [produce_calibration_core, hloc, hla, hgen]
    obtain ⟨h1, h2, h3⟩ := claim_C9_two_phase.2.2.2 _ _ _ _ _ _ _ _ hprod
    exact ⟨_, _, _, hprod, h1, h3.2⟩

lemma look_at_canonical :
    look_at ⟨0, 0, 0⟩ ⟨0, 0, 1⟩ ⟨0, 1, 0⟩ =
      ⟨-1, 0, 0, 0, 0, 1, 0, 0, 0, 0, -1, 0, 0, 0, 0, 1⟩ := by
  simp only [look_at, Vec3.sub, Vec3.normalize, Vec3.len, Vec3.dot, Vec3.cross]
  norm_num [Real.sqrt_one]

lemma view_angle_concrete :
    view_angle (look_at ⟨0, 0, 0⟩ ⟨0, 0, 1⟩ ⟨0, 1, 0⟩) ⟨0, 1, 1⟩ = Real.pi / 4 := by
  have h1 : Mat4.mulVec ⟨-1, 0, 0, 0, 0, 1, 0, 0, 0, 0, -1, 0, 0, 0, 0, 1⟩
      (Vec3.extend ⟨0, 1, 1⟩ 1) = ⟨0, 1, -1, 1⟩ := by
    simp only [Mat4.mulVec, Vec3.extend]
    norm_num
  unfold view_angle
  rw [look_at_canonical, h1]
  show atan2 |(1 : ℝ)| |(-1 : ℝ)| = Real.pi / 4
  rw [abs_one, show |(-1 : ℝ)| = 1 by norm_num, atan2_of_pos one_pos, div_one, Real.arctan_one]

lemma fitted_max_rad_concrete :
    fitted_max_rad (look_at ⟨0, 0, 0⟩ ⟨0, 0, 1⟩ ⟨0, 1, 0⟩) [⟨0, 1, 1⟩] = Real.pi / 4 := by
  unfold fitted_max_rad
  simp only [List.foldl_cons, List.foldl_nil]
  rw [view_angle_concrete]
  exact max_eq_right (by linarith [Real.pi_pos])

lemma degrees_pi_div_four : degrees (Real.pi / 4) = 45 := by
  unfold degrees
  rw [div_eq_iff Real.pi_ne_zero]
  ring

/-- Claim C1 as amended: for a non-empty scene-coordinate sequence the
FOV fit takes the maximum over all points of atan2(|vertical|, |depth|)
in the look-at view space and sets the field of view to that maximum
angle in degrees multiplied by the fixed factor 2.001 (0.05% over 2x),
not by 2 x 1.001 = 2.002 as the claim stated. -/
theorem claim_C1_fov_fit_amended :
    ∀ (sc : List Vec3) (vc : VirtualCamera) (res : Resolution) (c : Vec3),
      vc.look_at = some c → sc ≠ [] →
      ∃ (uv : List Vec2) (m : ℝ),
        m ∈ sc.map (view_angle (look_at vc.position c vc.up_dir)) ∧
        (∀ a ∈ sc.map (view_angle (look_at vc.position c vc.up_dir)), a ≤ m) ∧
        generate_uv_warp_and_fov sc vc res =
          some (uv, ⟨vc.position, vc.up_dir, some c, some (degrees m * 2.001)⟩) := by
  intro sc vc res c hc hne
  refine ⟨_, fitted_max_rad (look_at vc.position c vc.up_dir) sc, ?_, ?_,
    generate_eq sc vc res hc⟩
  · rw [fitted_max_rad_eq_map]
    rcases foldl_max_eq_init_or_mem (-1) (sc.map (view_angle (look_at vc.position c vc.up_dir)))
      with h | h
    · exfalso
      obtain ⟨p, hp⟩ : ∃ p, p ∈ sc := List.exists_mem_of_ne_nil sc hne
      have h1 : view_angle (look_at vc.position c vc.up_dir) p ≤
          (sc.map (view_angle (look_at vc.position c vc.up_dir))).foldl max (-1) :=
        mem_le_foldl_max _ (List.mem_map_of_mem _ hp)
      have h2 := view_angle_nonneg (look_at vc.position c vc.up_dir) p
      rw [h] at h1
      linarith
    · exact h
  · intro a ha
    rw [fitted_max_rad_eq_map]
    exact mem_le_foldl_max _ ha

/-- Witness for the amended C1 at a concrete input. -/
theorem claim_C1_witness :
    ∃ (uv : List Vec2) (m : ℝ),
      m ∈ ([⟨0, 1, 1⟩] : List Vec3).map
        (view_angle (look_at ⟨0, 0, 0⟩ ⟨0, 0, 1⟩ ⟨0, 1, 0⟩)) ∧
      (∀ a ∈ ([⟨0, 1, 1⟩] : List Vec3).map
        (view_angle (look_at ⟨0, 0, 0⟩ ⟨0, 0, 1⟩ ⟨0, 1, 0⟩)), a ≤ m) ∧
      generate_uv_warp_and_fov [⟨0, 1, 1⟩] ⟨⟨0, 0, 0⟩, ⟨0, 1, 0⟩, some ⟨0, 0, 1⟩, none⟩
          ⟨1920, 1080⟩ =
        some (uv, ⟨⟨0, 0, 0⟩, ⟨0, 1, 0⟩, some ⟨0, 0, 1⟩, some (degrees m * 2.001)⟩) :=
  claim_C1_fov_fit_amended [⟨0, 1, 1⟩] ⟨⟨0, 0, 0⟩, ⟨0, 1, 0⟩, some ⟨0, 0, 1⟩, none⟩
    ⟨1920, 1080⟩ ⟨0, 0, 1⟩ rfl (List.cons_ne_nil _ _)

/-- Counterexample to C1 as stated: at a concrete input whose maximum
view angle is 45 degrees, the code sets the FOV to 45 * 2.001, which
differs from the claimed 45 * 2 * 1.001. -/
theorem claim_C1_counterexample :
    view_angle (look_at ⟨0, 0, 0⟩ ⟨0, 0, 1⟩ ⟨0, 1, 0⟩) ⟨0, 1, 1⟩ = Real.pi / 4 ∧
    degrees (Real.pi / 4) = 45 ∧
    (∃ uv, generate_uv_warp_and_fov [⟨0, 1, 1⟩] ⟨⟨0, 0, 0⟩, ⟨0, 1, 0⟩, some ⟨0, 0, 1⟩, none⟩
        ⟨1920, 1080⟩ =
      some (uv, ⟨⟨0, 0, 0⟩, ⟨0, 1, 0⟩, some ⟨0, 0, 1⟩, some (45 * 2.001)⟩)) ∧
    (45 : ℝ) * 2.001 ≠ 45 * 2 * 1.001 := by
  refine ⟨view_angle_concrete, degrees_pi_div_four, ?_, by norm_num⟩
  have h : generate_uv_warp_and_fov [⟨0, 1, 1⟩] ⟨⟨0, 0, 0⟩, ⟨0, 1, 0⟩, some ⟨0, 0, 1⟩, none⟩
      ⟨1920, 1080⟩ =
      some (([⟨0, 1, 1⟩] : List Vec3).map (fun p => project_core p ⟨0, 0, 0⟩ ⟨0, 0, 1⟩ ⟨0, 1, 0⟩
          (degrees (fitted_max_rad (look_at ⟨0, 0, 0⟩ ⟨0, 0, 1⟩ ⟨0, 1, 0⟩) [⟨0, 1, 1⟩]) * 2.001)
          (Resolution.aspect_ratio ⟨1920, 1080⟩)),
        ⟨⟨0, 0, 0⟩, ⟨0, 1, 0⟩, some ⟨0, 0, 1⟩,
         some (degrees (fitted_max_rad (look_at ⟨0, 0, 0⟩ ⟨0, 0, 1⟩ ⟨0, 1, 0⟩) [⟨0, 1, 1⟩]) *
           2.001)⟩) :=
    generate_eq _ _ _ rfl
  rw [fitted_max_rad_concrete, degrees_pi_div_four] at h
  exact ⟨_, h⟩

/-- Claim C5: a scene point on the virtual camera's view axis projects
to the center (0.5, 0.5) of normalized projector space, and the final
clip-to-viewport mapping sends [-1,1]x[-1,1] normalized device
coordinates into [0,1]x[0,1] with a vertical flip (+Y down: larger
device y gives smaller output y). -/
theorem claim_C5_axis_projection :
    (∀ (vc : VirtualCamera) (c : Vec3) (f aspect t : ℝ),
      vc.look_at = some c → vc.fov = some f → c ≠ vc.position → 0 < t →
      project_scene_point (Vec3.add vc.position (Vec3.smul t (Vec3.sub c vc.position))) vc aspect =
        some ⟨1 / 2, 1 / 2⟩) ∧
    (∀ ndc : Vec3, -1 ≤ ndc.x → ndc.x ≤ 1 → -1 ≤ ndc.y → ndc.y ≤ 1 →
      0 ≤ (clip_to_viewport ⟨0, 0, 1, 1⟩ ndc).x ∧ (clip_to_viewport ⟨0, 0, 1, 1⟩ ndc).x ≤ 1 ∧
      0 ≤ (clip_to_viewport ⟨0, 0, 1, 1⟩ ndc).y ∧ (clip_to_viewport ⟨0, 0, 1, 1⟩ ndc).y ≤ 1) ∧
    (∀ n m : Vec3, n.y < m.y →
      (clip_to_viewport ⟨0, 0, 1, 1⟩ m).y < (clip_to_viewport ⟨0, 0, 1, 1⟩ n).y) := by
  refine ⟨?_, ?_, ?_⟩
  · intro vc c f aspect t hc hf _ _
    simp only [project_scene_point, hc, hf, Option.some.injEq]
    simp only [project_core, project, clip_to_viewport, perspective, look_at, radians,
      Mat4.mulVec, Vec3.extend, Vec3.normalize, Vec3.len, Vec3.cross, Vec3.sub, Vec3.dot,
      Vec3.add, Vec3.smul, Vec2.mk.injEq]
    constructor <;> ring
  · intro ndc h1 h2 h3 h4
    simp only [clip_to_viewport]
    norm_num
    refine ⟨by linarith, by linarith, by linarith, by linarith⟩
  · intro n m h
    simp only [clip_to_viewport]
    norm_num
    linarith

/-- Witness for C5 at a concrete camera and axis point. -/
theorem claim_C5_witness :
    project_scene_point (Vec3.add ⟨0, 0, 0⟩ (Vec3.smul 1 (Vec3.sub ⟨0, 0, 1⟩ ⟨0, 0, 0⟩)))
        ⟨⟨0, 0, 0⟩, ⟨0, 1, 0⟩, some ⟨0, 0, 1⟩, some 90⟩ 1 = some ⟨1 / 2, 1 / 2⟩ ∧
    (0 ≤ (clip_to_viewport ⟨0, 0, 1, 1⟩ ⟨0, 0, 0⟩).y ∧
      (clip_to_viewport ⟨0, 0, 1, 1⟩ ⟨0, 0, 0⟩).y ≤ 1) ∧
    (clip_to_viewport ⟨0, 0, 1, 1⟩ ⟨0, 1, 0⟩).y < (clip_to_viewport ⟨0, 0, 1, 1⟩ ⟨0, 0, 0⟩).y := by
  refine ⟨?_, ?_, ?_⟩
  · exact claim_C5_axis_projection.1 ⟨⟨0, 0, 0⟩, ⟨0, 1, 0⟩, some ⟨0, 0, 1⟩, some 90⟩ ⟨0, 0, 1⟩
      90 1 1 rfl rfl (fun h => one_ne_zero (congrArg Vec3.z h)) one_pos
  · have h := claim_C5_axis_projection.2.1 ⟨0, 0, 0⟩ (by norm_num) (by norm_num)
      (by norm_num) (by norm_num)
    exact ⟨h.2.2.1, h.2.2.2⟩
  · exact claim_C5_axis_projection.2.2 ⟨0, 0, 0⟩ ⟨0, 1, 0⟩ (by norm_num)

lemma project_core_concrete :
    project_core ⟨0, 10, 1⟩ ⟨0, 0, 0⟩ ⟨0, 0, 1⟩ ⟨0, 1, 0⟩ 90 1 = ⟨1 / 2, -9 / 2⟩ := by
  have htan : Real.tan (radians 90 / 2) = 1 := by
    rw [show radians 90 / 2 = Real.pi / 4 by unfold radians; ring]
    exact Real.tan_pi_div_four
  simp only [project_core, project, clip_to_viewport, perspective]
  rw [look_at_canonical, htan]
  simp only [Mat4.mulVec, Vec3.extend]
  norm_num

/-- Claim C7: out-of-range projections are non-fatal: whenever the
virtual camera's direction and FOV are set, project_scene_point returns
the computed normalized coordinate (also when it is out of [0,1] on
either axis, where the source only logs a warning), and
generate_uv_warp_and_fov emits every point's projection at its index. -/
theorem claim_C7_out_of_range_nonfatal :
    (∀ (p : Vec3) (vc : VirtualCamera) (aspect : ℝ) (c : Vec3) (f : ℝ),
      vc.look_at = some c → vc.fov = some f →
      project_scene_point p vc aspect =
        some (project_core p vc.position c vc.up_dir f aspect)) ∧
    (∀ (p : Vec3) (vc : VirtualCamera) (aspect : ℝ) (c : Vec3) (f : ℝ),
      vc.look_at = some c → vc.fov = some f →
      out_of_range (project_core p vc.position c vc.up_dir f aspect) →
      project_scene_point p vc aspect =
        some (project_core p vc.position c vc.up_dir f aspect)) ∧
    (∀ (sc : List Vec3) (vc : VirtualCamera) (res : Resolution) (c : Vec3),
      vc.look_at = some c →
      ∃ (uv : List Vec2) (vc2 : VirtualCamera),
        generate_uv_warp_and_fov sc vc res = some (uv, vc2) ∧
        uv.length = sc.length ∧
        ∀ (i : ℕ) (p : Vec3), sc[i]? = some p →
          uv[i]? = some (project_core p vc.position c vc.up_dir
            (degrees (fitted_max_rad (look_at vc.position c vc.up_dir) sc) * 2.001)
            (Resolution.aspect_ratio res))) := by
  refine ⟨?_, ?_, ?_⟩
  · intro p vc aspect c f hc hf
    simp [project_scene_point, hc, hf]
  · intro p vc aspect c f hc hf _
    simp [project_scene_point, hc, hf]
  · intro sc vc res c hc
    refine ⟨_, _, generate_eq sc vc res hc, by simp, ?_⟩
    intro i p hp
    simp [List.getElem?_map, hp]

/-- Witness for C7: a concrete configuration where the projected point
lands outside [0,1] (output y is -9/2) yet is still returned. -/
theorem claim_C7_witness :
    out_of_range (project_core ⟨0, 10, 1⟩ ⟨0, 0, 0⟩ ⟨0, 0, 1⟩ ⟨0, 1, 0⟩ 90 1) ∧
    project_scene_point ⟨0, 10, 1⟩ ⟨⟨0, 0, 0⟩, ⟨0, 1, 0⟩, some ⟨0, 0, 1⟩, some 90⟩ 1 =
      some (project_core ⟨0, 10, 1⟩ ⟨0, 0, 0⟩ ⟨0, 0, 1⟩ ⟨0, 1, 0⟩ 90 1) := by
  have hoor : out_of_range (project_core ⟨0, 10, 1⟩ ⟨0, 0, 0⟩ ⟨0, 0, 1⟩ ⟨0, 1, 0⟩ 90 1) := by
    rw [project_core_concrete]
    unfold out_of_range
    norm_num
  exact ⟨hoor, claim_C7_out_of_range_nonfatal.2.1 ⟨0, 10, 1⟩
    ⟨⟨0, 0, 0⟩, ⟨0, 1, 0⟩, some ⟨0, 0, 1⟩, some 90⟩ 1 ⟨0, 0, 1⟩ 90 rfl rfl hoor⟩

end Aligner
